import Mathlib

/-!
Verification development for the bash-command AST normalizer of this
repository (`bashlex/normalizer.py`).  The Python module walks a raw parse
tree produced by an external shell parser and builds a normalized tree of
typed nodes (head commands, flags, arguments, logic operators, pipelines,
substitutions), with an attach-point cursor, two scan-state flags and a
post-pass that restructures unary logic operators.

The embedding below is a direct translation of the source:

* Python heap objects with `parent` / `lsb` / `rsb` back-pointers become an
  arena (`List NodeData`) addressed by index; `attach_to_tree`,
  `Node.getRightChild`, `Node.removeChild` are translated field by field.
* Python exceptions become an explicit `PyError` outcome.  The module is
  Python 2: `raise ValueError(...)` is `valueError` (caught at the entry
  point), `sys.exit()` is `sysExit` (process termination),
  `raise("...")` with a bare string raises `TypeError` in Python 2 and is
  modelled as `typeError`, a failed `assert` is `assertionError`, attribute
  access on `None` is `attributeError`.
* Recursion carries explicit fuel (structural on `Nat`) so that every
  function is executable; exhausting fuel is `recursionError`, the analogue
  of Python's recursion limit.  All concrete evaluations in the theorems use
  ample fuel.
* The external parser (`parser.parse`) is out of scope of the repository and
  is passed to `normalize_ast` as an oracle `String → Option (List RawAst)`;
  `none` covers the five parser-level exception handlers, all of which
  return `None`.
* `is_option`, `head_commands` and the digit pattern live in `bash.py`,
  which is not part of the sources here; they are modelled from the
  specification and marked as such.
-/

namespace Normalizer

/-- Python-level outcomes of running a piece of the normalizer.  Only
`valueError` is caught by the entry point; `sysExit` terminates the process;
the remaining constructors model exceptions that propagate to the caller. -/
inductive PyError where
  | valueError (msg : String)
  | sysExit
  | typeError (msg : String)
  | assertionError
  | attributeError
  | indexError
  | recursionError
  deriving DecidableEq, Repr

/-- Modelled from the spec: the option predicate lives in `bash.py`, which is
not among the sources; §4.1 describes it as true for a token shaped like an
option, i.e. carrying a leading dash. -/
def is_option (w : String) : Bool :=
  match w.data with
  | '-' :: _ => true
  | _ => false

/-- Modelled from the spec: the fixed whitelist of recognized utility names
(`head_commands` in `bash.py`, not among the sources). -/
def head_commands : List String :=
  ["find", "grep", "ls", "cp", "tar", "echo", "pwd", "sort", "wc", "cat"]

/-- Unary logic operator tokens, from `normalizer.py`. -/
def unary_logic_operators : List String := ["!", "-not"]

/-- Binary logic operator tokens, from `normalizer.py`. -/
def binary_logic_operators : List String := ["-and", "-or", "||", "&&", "-o"]

/-- Modelled from the spec: the digit pattern and placeholder live in
`bash.py`, not among the sources; §4.1 describes digit canonicalization as
the replacement of numeral runs with a placeholder token (`_NUM`).  The
`Bool` argument tracks whether the scanner is inside a digit run. -/
def replaceDigitsAux : Bool → List Char → List Char
  | _, [] => []
  | inRun, c :: rest =>
    if c.isDigit then
      if inRun then replaceDigitsAux true rest
      else '_' :: 'N' :: 'U' :: 'M' :: replaceDigitsAux true rest
    else c :: replaceDigitsAux false rest

/-- Replace every maximal numeral run with the `_NUM` placeholder. -/
def replaceDigits (cs : List Char) : List Char :=
  replaceDigitsAux false cs

/-- Translation of `normalize_word`: canonicalize digits only when the switch
is on and the word is not an option. -/
def normalize_word (b : Bool) (w : String) : String :=
  if b && !is_option w then ⟨replaceDigits w.data⟩ else w

/-- Word character of the `tar` regex `' tar \w'` (ASCII `\w`). -/
def isWordChar (c : Char) : Bool :=
  c.isAlphanum || c = '_'

/-- Whitespace as stripped by Python's `str.strip`. -/
def isSpaceChar (c : Char) : Bool :=
  c = ' ' || c = '\t' || c = '\n' || c = '\x0b' || c = '\x0c' || c = '\r'

/-- Python `str.strip` on a character list. -/
def stripChars (cs : List Char) : List Char :=
  ((cs.dropWhile isSpaceChar).reverse.dropWhile isSpaceChar).reverse

/-- Non-overlapping left-to-right matches of the regex `' tar \w'`, as
`re.findall` returns them: each match is the six-character string
`" tar "` followed by one word character. -/
def findTarMatches : List Char → List (List Char)
  | ' ' :: 't' :: 'a' :: 'r' :: ' ' :: c :: rest =>
    if isWordChar c then
      [' ', 't', 'a', 'r', ' ', c] :: findTarMatches rest
    else
      findTarMatches ('t' :: 'a' :: 'r' :: ' ' :: c :: rest)
  | _ :: rest => findTarMatches rest
  | [] => []

/-- Python `str.replace` specialized to the six-character pattern
`" tar c"`, rewritten to `" tar -c"`; all non-overlapping occurrences are
replaced, scanning left to right. -/
def replaceTarDash (c : Char) : List Char → List Char
  | ' ' :: 't' :: 'a' :: 'r' :: ' ' :: d :: rest =>
    if d = c then
      ' ' :: 't' :: 'a' :: 'r' :: ' ' :: '-' :: c :: replaceTarDash c rest
    else
      ' ' :: replaceTarDash c ('t' :: 'a' :: 'r' :: ' ' :: d :: rest)
  | x :: rest => x :: replaceTarDash c rest
  | [] => []

/-- The replacement loop of `special_command_normalization`: for each found
match, replace all of its occurrences. -/
def applyTarFix (ms : List (List Char)) (cs : List Char) : List Char :=
  match ms with
  | [] => cs
  | m :: rest =>
    match m with
    | [_, _, _, _, _, c] => applyTarFix rest (replaceTarDash c cs)
    | _ => applyTarFix rest cs

/-- Python `cmd.startswith('tar')` on the character list. -/
def startsWithTar (cmd : String) : Bool :=
  match cmd.data with
  | 't' :: 'a' :: 'r' :: _ => true
  | _ => false

/-- Translation of `special_command_normalization`: only commands starting
with `tar` are touched; a space is prepended, every `' tar \w'` occurrence
gains a dash, and the result is stripped. -/
def special_command_normalization (cmd : String) : String :=
  if startsWithTar cmd then
    let cs := ' ' :: cmd.data
    ⟨stripChars (applyTarFix (findTarMatches cs) cs)⟩
  else cmd

/-- One node of the normalized tree, mirroring class `Node`: `parent`,
`lsb`, `rsb` are arena indices standing for the Python object references;
`numChild` is the `num_child` arity field (`-1` means unconstrained). -/
structure NodeData where
  parent : Option Nat
  lsb : Option Nat
  rsb : Option Nat
  kind : String
  value : String
  children : List Nat
  numChild : Int
  deriving DecidableEq, Repr

instance : Inhabited NodeData :=
  ⟨⟨none, none, none, "", "", [], -1⟩⟩

/-- The tree under construction: an arena of nodes addressed by index. -/
abbrev TState := List NodeData

/-- Arena read, standing for dereferencing a node pointer. -/
def getNode (st : TState) (i : Nat) : NodeData :=
  st.getD i default

/-- Arena update of a single node. -/
def setNode (st : TState) (i : Nat) (f : NodeData → NodeData) : TState :=
  st.set i (f (getNode st i))

/-- Length of the arena. -/
def arenaSize (st : TState) : Nat :=
  st.length

/-- `ArgumentNode.__init__`: `num_child = 0`. -/
def mkArgumentNode (kind value : String) : NodeData :=
  ⟨none, none, none, kind, value, [], 0⟩

/-- `UnaryLogicOpNode.__init__`: kind `unarylogicop`, `num_child = 1`. -/
def mkUnaryLogicOpNode (value : String) : NodeData :=
  ⟨none, none, none, "unarylogicop", value, [], 1⟩

/-- `BinaryLogicOpNode.__init__`: kind `binarylogicop`, `num_child = 2`. -/
def mkBinaryLogicOpNode (value : String) : NodeData :=
  ⟨none, none, none, "binarylogicop", value, [], 2⟩

/-- `PipelineNode.__init__`: kind `pipeline`, inherits `num_child = -1`. -/
def mkPipelineNode : NodeData :=
  ⟨none, none, none, "pipeline", "", [], -1⟩

/-- `CommandSubstitutionNode.__init__`: kind `commandsubstitution`,
`num_child = 1`. -/
def mkCommandSubstitutionNode : NodeData :=
  ⟨none, none, none, "commandsubstitution", "", [], 1⟩

/-- `ProcessSubstitutionNode.__init__` with a valid direction value:
kind `processsubstitution`, `num_child = 1`.  The constructor's
`ValueError` branch is unreachable because both call sites pass a
literal direction. -/
def mkProcessSubstitutionNode (value : String) : NodeData :=
  ⟨none, none, none, "processsubstitution", value, [], 1⟩

/-- The synthetic root `Node(kind="root", value="root")`. -/
def rootData : NodeData :=
  ⟨none, none, none, "root", "root", [], -1⟩

/-- Translation of `attach_to_tree`: set the parent, record the parent's
previous rightmost child as `lsb`, append the node to the parent's children,
and point the left sibling's `rsb` at the new node.  Returns the updated
arena and the fresh node's index. -/
def attachToTree (st : TState) (nd : NodeData) (p : Nat) : TState × Nat :=
  let lsb := (getNode st p).children.getLast?
  let idx := arenaSize st
  let node := { nd with parent := some p, lsb := lsb, rsb := none }
  let st1 : TState := st ++ [node]
  let st2 := setNode st1 p (fun m => { m with children := m.children ++ [idx] })
  let st3 :=
    match lsb with
    | some l => setNode st2 l (fun m => { m with rsb := some idx })
    | none => st2
  (st3, idx)

/-- Attach under an attach point that may be Python `None`: attaching under
`None` dereferences a null reference (`AttributeError`). -/
def attachM (st : TState) (nd : NodeData) (p : Option Nat) :
    Except PyError (TState × Nat) :=
  match p with
  | none => .error .attributeError
  | some p => .ok (attachToTree st nd p)

/-- Translation of `find_attach_point`: non-options keep the current attach
point; under a flag, retreat to the flag's parent; at a head command, stay;
anything else prints an error and calls `sys.exit()`. -/
def findAttachPoint (st : TState) (w : String) (ap : Option Nat) :
    Except PyError (Option Nat) :=
  if is_option w then
    match ap with
    | none => .error .attributeError
    | some a =>
      if (getNode st a).kind = "flag" then .ok (getNode st a).parent
      else if (getNode st a).kind = "headcommand" then .ok (some a)
      else .error .sysExit
  else .ok ap

/-- Scan state of `normalize_command`: the attach-point cursor, the
`END_OF_OPTIONS` and `END_OF_COMMAND` flags, and the recorded unary and
binary logic-operator nodes. -/
structure Scan where
  ap : Option Nat
  eoo : Bool
  eoc : Bool
  unary : List Nat
  binary : List Nat
  deriving DecidableEq, Repr

/-- Scan value returned by jobs that do not carry a scan of their own. -/
def emptyScan : Scan :=
  ⟨none, false, false, [], []⟩

/-- The `END_OF_COMMAND` pop at the top of the scan loop: move the attach
point to its parent; if that parent is a flag, pop once more; a parent that
is neither flag nor head command is the fatal compound-command error. -/
def popEoc (st : TState) (scan : Scan) : Except PyError Scan :=
  match scan.ap with
  | none => .error .attributeError
  | some a =>
    match (getNode st a).parent with
    | none => .error .attributeError
    | some a1 =>
      if (getNode st a1).kind = "flag" then
        .ok { scan with ap := (getNode st a1).parent, eoc := false }
      else if (getNode st a1).kind = "headcommand" then
        .ok { scan with ap := some a1, eoc := false }
      else .error .sysExit

/-- The logic-operator absorption post-pass of `normalize_command`: for each
recorded unary node, its `rsb` pointer must be set (`assert(rsb != None)`),
the sibling is removed from the unary node's parent (`list.remove`, which
raises `ValueError` when absent), reparented as the unary node's child, and
its sibling links are cleared. -/
def processUnaryOps : List Nat → TState → Except PyError TState
  | [], st => .ok st
  | n :: rest, st =>
    let nd := getNode st n
    match nd.rsb with
    | none => .error .assertionError
    | some r =>
      match nd.parent with
      | none => .error .attributeError
      | some p =>
        if r ∈ (getNode st p).children then
          let st1 := setNode st p (fun m => { m with children := m.children.erase r })
          let st2 := setNode st1 r (fun m => { m with parent := some n, lsb := none, rsb := none })
          let st3 := setNode st2 n (fun m => { m with children := m.children ++ [r], rsb := none })
          processUnaryOps rest st3
        else .error (.valueError "list.remove(x): x not in list")

/-- Raw parse-tree node of the external parser (`bashlex.ast.node`): a kind
tag, a word, a source span, the ordered sub-part list (with a flag recording
whether the attribute exists at all, for the `hasattr` dispatch branch), and
the nested command reference of substitution nodes (empty when absent). -/
inductive RawAst where
  | mk (kind : String) (word : String) (pos : Nat × Nat)
       (hasParts : Bool) (parts : List RawAst) (cmd : List RawAst)

instance : DecidableEq RawAst := fun a b =>
  match a, b with
  | .mk k1 w1 p1 h1 ps1 c1, .mk k2 w2 p2 h2 ps2 c2 =>
    if hk : k1 = k2 ∧ w1 = w2 ∧ p1 = p2 ∧ h1 = h2 then
      match decEqList ps1 ps2 with
      | .isTrue hp =>
        match decEqList c1 c2 with
        | .isTrue hc => .isTrue (by obtain ⟨e1, e2, e3, e4⟩ := hk; subst e1; subst e2; subst e3; subst e4; subst hp; subst hc; rfl)
        | .isFalse hc => .isFalse (by intro h; injection h; simp_all)
      | .isFalse hp => .isFalse (by intro h; injection h; simp_all)
    else .isFalse (by intro h; injection h; simp_all)
where
  decEqList : (a b : List RawAst) → Decidable (a = b)
    | [], [] => .isTrue rfl
    | [], _ :: _ => .isFalse (by simp)
    | _ :: _, [] => .isFalse (by simp)
    | x :: xs, y :: ys =>
      match instDecidableEqRawAst x y, decEqList xs ys with
      | .isTrue h1, .isTrue h2 => .isTrue (by rw [h1, h2])
      | .isFalse h1, _ => .isFalse (by intro h; injection h; simp_all)
      | _, .isFalse h2 => .isFalse (by intro h; injection h; simp_all)

/-- Kind tag of a raw node. -/
def RawAst.kind : RawAst → String
  | .mk k _ _ _ _ _ => k

/-- Word of a raw node. -/
def RawAst.word : RawAst → String
  | .mk _ w _ _ _ _ => w

/-- Source span of a raw node. -/
def RawAst.pos : RawAst → Nat × Nat
  | .mk _ _ p _ _ _ => p

/-- A plain word raw node with an explicit source span. -/
def mkWord (w : String) (p q : Nat) : RawAst :=
  .mk "word" w (p, q) true [] []

/-- A plain unquoted word raw node: the span width equals the word length. -/
def mkW (w : String) : RawAst :=
  mkWord w 0 w.length

/-- Work items of the recursive normalizer: `one` is a `normalize(node,
current, arg_type)` call, `seq` a plain recursion over sub-parts, `pipeseq`
the pipeline-stage loop, and `cmdseq` the `normalize_command` scan loop with
its carried state. -/
inductive Job where
  | one (node : RawAst) (current : Option Nat) (argType : String)
  | seq (parts : List RawAst) (current : Option Nat)
  | pipeseq (parts : List RawAst) (pipeIdx : Nat)
  | cmdseq (parts : List RawAst) (scan : Scan)

/-- Attach a single node and wrap the result as a job outcome. -/
def attachResult (st : TState) (nd : NodeData) (current : Option Nat) :
    Except PyError (TState × Scan) :=
  match attachM st nd current with
  | .error e => .error e
  | .ok (st1, _) => .ok (st1, emptyScan)

/-- Translation of the mutually recursive `normalize` / `normalize_command`
pair, with explicit fuel.  `b` is the `normalize_digits` switch.  The
dispatch order follows the Python `if`/`elif` chain exactly: `word`,
`pipeline`, `list`, substitutions, `command`, the generic `hasattr(node,
'parts')` pass-through, then the unsupported kinds, and silent fall-through
for anything else. -/
def run (b : Bool) : Nat → Job → TState → Except PyError (TState × Scan)
  | 0, _, _ => .error .recursionError
  | fuel + 1, .one node current argType, st =>
    match node with
    | .mk kind word _pos hasParts parts cmdl =>
      if kind = "word" then
        if hasParts = false then .error .attributeError
        else
          match parts with
          | [] => attachResult st (mkArgumentNode argType (normalize_word b word)) current
          | p1 :: _ =>
            if p1.kind = "tilde" then
              attachResult st (mkArgumentNode argType (normalize_word b word)) current
            else if p1.kind = "processsubstitution" then
              if word.data.contains '>' then
                match attachM st (mkProcessSubstitutionNode ">") current with
                | .error e => .error e
                | .ok (st1, idx) => run b fuel (.seq parts (some idx)) st1
              else if word.data.contains '<' then
                match attachM st (mkProcessSubstitutionNode "<") current with
                | .error e => .error e
                | .ok (st1, idx) => run b fuel (.seq parts (some idx)) st1
              else .ok (st, emptyScan)
            else if p1.kind = "commandsubstitution" then
              match attachM st mkCommandSubstitutionNode current with
              | .error e => .error e
              | .ok (st1, idx) => run b fuel (.seq parts (some idx)) st1
            else if p1.kind = "parameter" then
              attachResult st (mkArgumentNode argType (normalize_word b word)) current
            else
              run b fuel (.seq parts current) st
      else if kind = "pipeline" then
        if hasParts = false then .error .attributeError
        else
          match attachM st mkPipelineNode current with
          | .error e => .error e
          | .ok (st1, idx) =>
            if parts.length % 2 = 0 then .error .sysExit
            else run b fuel (.pipeseq parts idx) st1
      else if kind = "list" then
        if hasParts = false then .error .attributeError
        else if parts.length > 2 then
          .error (.typeError "Unsupported: list of length >= 2")
        else run b fuel (.seq parts current) st
      else if kind = "commandsubstitution" ∨ kind = "processsubstitution" then
        match cmdl with
        | c :: _ => run b fuel (.one c current "") st
        | [] => .error .attributeError
      else if kind = "command" then
        if hasParts = false then .error .attributeError
        else
          match run b fuel (.cmdseq parts ⟨current, false, false, [], []⟩) st with
          | .error e => .error e
          | .ok (st1, sc) =>
            match processUnaryOps sc.unary st1 with
            | .error e => .error e
            | .ok st2 => .ok (st2, emptyScan)
      else if hasParts then
        run b fuel (.seq parts current) st
      else if kind = "operator" then .error (.valueError "Unsupported: operator")
      else if kind = "parameter" then .error (.valueError "Unsupported: parameters")
      else if kind = "redirect" ∨ kind = "for" ∨ kind = "if" ∨ kind = "while" ∨
              kind = "until" ∨ kind = "assignment" ∨ kind = "function" ∨
              kind = "tilde" ∨ kind = "heredoc" then
        .error (.valueError ("Unsupported: " ++ kind))
      else .ok (st, emptyScan)
  | fuel + 1, .seq parts current, st =>
    match parts with
    | [] => .ok (st, emptyScan)
    | c :: rest =>
      match run b fuel (.one c current "") st with
      | .error e => .error e
      | .ok (st1, _) => run b fuel (.seq rest current) st1
  | fuel + 1, .pipeseq parts pipeIdx, st =>
    match parts with
    | [] => .ok (st, emptyScan)
    | c :: rest =>
      if c.kind = "command" then
        match run b fuel (.one c (some pipeIdx) "") st with
        | .error e => .error e
        | .ok (st1, _) => run b fuel (.pipeseq rest pipeIdx) st1
      else if c.kind = "pipe" then run b fuel (.pipeseq rest pipeIdx) st
      else .error .sysExit
  | fuel + 1, .cmdseq parts scan, st =>
    match parts with
    | [] => .ok (st, scan)
    | child :: rest =>
      match (if scan.eoc then popEoc st scan else .ok scan) with
      | .error e => .error e
      | .ok scan =>
        if child.kind = "word" then
          let w := child.word
          if w = "--" then run b fuel (.cmdseq rest { scan with eoo := true }) st
          else if w = ";" then run b fuel (.cmdseq rest { scan with eoc := true }) st
          else if unary_logic_operators.contains w then
            match findAttachPoint st w scan.ap with
            | .error e => .error e
            | .ok ap =>
              match attachM st (mkUnaryLogicOpNode w) ap with
              | .error e => .error e
              | .ok (st1, idx) =>
                run b fuel (.cmdseq rest { scan with ap := ap, unary := scan.unary ++ [idx] }) st1
          else if binary_logic_operators.contains w then
            match findAttachPoint st w scan.ap with
            | .error e => .error e
            | .ok ap =>
              match attachM st (mkBinaryLogicOpNode w) ap with
              | .error e => .error e
              | .ok (st1, idx) =>
                run b fuel (.cmdseq rest { scan with ap := ap, binary := scan.binary ++ [idx] }) st1
          else if head_commands.contains w then
            if w.length = child.pos.2 - child.pos.1 then
              match run b fuel (.one child scan.ap "headcommand") st with
              | .error e => .error e
              | .ok (st1, _) =>
                match scan.ap with
                | some a =>
                  run b fuel (.cmdseq rest { scan with ap := (getNode st1 a).children.getLast? }) st1
                | none => .error .attributeError
            else run b fuel (.cmdseq rest scan) st
          else if is_option w && !scan.eoo then
            match findAttachPoint st w scan.ap with
            | .error e => .error e
            | .ok ap =>
              match run b fuel (.one child ap "flag") st with
              | .error e => .error e
              | .ok (st1, _) =>
                match ap with
                | some a =>
                  run b fuel (.cmdseq rest { scan with ap := (getNode st1 a).children.getLast? }) st1
                | none => .error .attributeError
          else
            match run b fuel (.one child scan.ap "argument") st with
            | .error e => .error e
            | .ok (st1, _) => run b fuel (.cmdseq rest scan) st1
        else .error .sysExit

/-- Observable outcome of the entry point: a normalized tree, the `None`
result, process termination through `sys.exit`, or an exception escaping to
the caller. -/
inductive EntryResult where
  | tree (nodes : List NodeData)
  | noResult
  | processExit
  | uncaught (e : PyError)
  deriving DecidableEq, Repr

/-- The `try/except ValueError` boundary of the entry point: a `ValueError`
is caught and becomes `None`; `sys.exit` terminates the process; every other
exception propagates to the caller. -/
def entryOf : Except PyError (TState × Scan) → EntryResult
  | .ok (st, _) => .tree st
  | .error (.valueError _) => .noResult
  | .error .sysExit => .processExit
  | .error e => .uncaught e

/-- Lines 411-418 of `normalize_ast`: build the root, normalize the first
raw tree under it, and map the outcome through the exception boundary. -/
def normalize_tree (fuel : Nat) (b : Bool) (t : RawAst) : EntryResult :=
  entryOf (run b fuel (.one t (some 0) "") [rootData])

/-- The newline collapse, strip and syntax preprocessing applied to the
command text before parsing. -/
def preprocessed (cmd : String) : String :=
  special_command_normalization
    ⟨stripChars (cmd.data.map (fun c => if c = '\n' then ' ' else c))⟩

/-- Full translation of `normalize_ast`, with the external parser passed as
an oracle: parser failure (any of the five handled exception classes) yields
`None`; an empty preprocessed command yields `None`; an empty root sequence
hits `tree[0]` and raises `IndexError`; only the first root is normalized. -/
def normalize_ast (parse : String → Option (List RawAst)) (fuel : Nat)
    (cmd : String) (b : Bool) : EntryResult :=
  let c := preprocessed cmd
  if c.data = [] then .noResult
  else
    match parse c with
    | none => .noResult
    | some [] => .uncaught .indexError
    | some (t :: _) => normalize_tree fuel b t

/-- Arena of a successful entry result, empty otherwise. -/
def resultNodes : EntryResult → List NodeData
  | .tree ns => ns
  | _ => []

/-- Whether the entry point returned a tree. -/
def isTreeResult : EntryResult → Bool
  | .tree _ => true
  | _ => false

/-- Node of a successful entry result at an arena index. -/
def nodeAt (r : EntryResult) (i : Nat) : NodeData :=
  (resultNodes r).getD i default

/-! Concrete raw parse trees, shaped as the external parser produces them
for the corresponding command strings, and parse oracles returning them. -/

/-- Raw tree of `find . -name x -and -not -name y`. -/
def findAndTree : RawAst :=
  .mk "command" "" (0, 0) true
    [mkW "find", mkW ".", mkW "-name", mkW "x", mkW "-and", mkW "-not",
     mkW "-name", mkW "y"] []

/-- Raw tree of `find . -not -not -name x`. -/
def notNotTree : RawAst :=
  .mk "command" "" (0, 0) true
    [mkW "find", mkW ".", mkW "-not", mkW "-not", mkW "-name", mkW "x"] []

/-- Raw tree of `-name x`: a command whose first word is an option. -/
def dashNameTree : RawAst :=
  .mk "command" "" (0, 0) true [mkW "-name", mkW "x"] []

/-- Raw tree of the command `ls`. -/
def lsCmd : RawAst := .mk "command" "" (0, 0) true [mkW "ls"] []

/-- Raw tree of the command `pwd`. -/
def pwdCmd : RawAst := .mk "command" "" (0, 0) true [mkW "pwd"] []

/-- Raw tree of the command `echo hi`. -/
def echoHiCmd : RawAst := .mk "command" "" (0, 0) true [mkW "echo", mkW "hi"] []

/-- Raw control-operator node `;`. -/
def semiOp : RawAst := .mk "operator" ";" (0, 1) false [] []

/-- Raw pipe-operator node `|`. -/
def pipeTok : RawAst := .mk "pipe" "|" (0, 1) false [] []

/-- Raw list node of `ls ; pwd ; echo hi`: five parts. -/
def list3Tree : RawAst :=
  .mk "list" "" (0, 0) true [lsCmd, semiOp, pwdCmd, semiOp, echoHiCmd] []

/-- A malformed pipeline raw node with an even number of parts. -/
def evenPipeTree : RawAst := .mk "pipeline" "" (0, 0) true [lsCmd, pipeTok] []

/-- Raw tree of the command `find .`. -/
def findDotCmd : RawAst := .mk "command" "" (0, 0) true [mkW "find", mkW "."] []

/-- Raw tree of the command `grep foo`. -/
def grepFooCmd : RawAst := .mk "command" "" (0, 0) true [mkW "grep", mkW "foo"] []

/-- Raw pipeline node of `find . | grep foo`: three parts. -/
def oddPipeTree : RawAst :=
  .mk "pipeline" "" (0, 0) true [findDotCmd, pipeTok, grepFooCmd] []

/-- Raw command-substitution node wrapping a nested command. -/
def cmdSubRaw (inner : RawAst) : RawAst :=
  .mk "commandsubstitution" "" (0, 0) false [] [inner]

/-- Raw word node of `$(ls)$(pwd)`: two command-substitution sub-parts. -/
def subWord : RawAst :=
  .mk "word" "$(ls)$(pwd)" (5, 16) true [cmdSubRaw lsCmd, cmdSubRaw pwdCmd] []

/-- Raw tree of `echo $(ls)$(pwd)`. -/
def echoSubTree : RawAst := .mk "command" "" (0, 0) true [mkW "echo", subWord] []

/-- Raw tree of `cp file1 file2`. -/
def cpTree : RawAst := .mk "command" "" (0, 0) true [mkW "cp", mkW "file1", mkW "file2"] []

/-- Parse oracle producing the raw tree of `find . -name x -and -not -name y`. -/
def parseFindAnd : String → Option (List RawAst) :=
  fun s => if s = "find . -name x -and -not -name y" then some [findAndTree] else none

/-- Parse oracle producing the raw tree of `find . -not -not -name x`. -/
def parseNotNot : String → Option (List RawAst) :=
  fun s => if s = "find . -not -not -name x" then some [notNotTree] else none

/-- Parse oracle producing the raw tree of `-name x`. -/
def parseDashName : String → Option (List RawAst) :=
  fun s => if s = "-name x" then some [dashNameTree] else none

/-- Parse oracle producing the raw list node of `ls ; pwd ; echo hi`. -/
def parseList3 : String → Option (List RawAst) :=
  fun s => if s = "ls ; pwd ; echo hi" then some [list3Tree] else none

/-- Parse oracle producing the even-part pipeline node. -/
def parseEvenPipe : String → Option (List RawAst) :=
  fun s => if s = "ls |" then some [evenPipeTree] else none

/-- Parse oracle producing the raw pipeline of `find . | grep foo`. -/
def parseOddPipe : String → Option (List RawAst) :=
  fun s => if s = "find . | grep foo" then some [oddPipeTree] else none

/-- Parse oracle producing the raw tree of `echo $(ls)$(pwd)`. -/
def parseEchoSub : String → Option (List RawAst) :=
  fun s => if s = "echo $(ls)$(pwd)" then some [echoSubTree] else none

/-- Parse oracle producing the raw tree of `cp file1 file2`. -/
def parseCp : String → Option (List RawAst) :=
  fun s => if s = "cp file1 file2" then some [cpTree] else none

/-- Normalization result of `find . -name x -and -not -name y`. -/
def rFindAnd : EntryResult :=
  normalize_ast parseFindAnd 50 "find . -name x -and -not -name y" false

/-- Normalization result of `echo $(ls)$(pwd)`. -/
def rEchoSub : EntryResult :=
  normalize_ast parseEchoSub 50 "echo $(ls)$(pwd)" false

/-- Normalization result of `find . | grep foo`. -/
def rOddPipe : EntryResult :=
  normalize_ast parseOddPipe 50 "find . | grep foo" false

/-! Helper lemmas about arena reads and writes, used by the scan-step
theorems. -/

/-- Reading back the index just written by `List.set`. -/
theorem getD_set_self {α : Type} (l : List α) (i : Nat) (x d : α)
    (h : i < l.length) : (l.set i x).getD i d = x := by
  rw [List.getD_eq_getElem?_getD, List.getElem?_set_self h]
  rfl

/-- Reading an index other than the one written by `List.set`. -/
theorem getD_set_ne {α : Type} (l : List α) (i j : Nat) (x d : α)
    (h : i ≠ j) : (l.set i x).getD j d = l.getD j d := by
  rw [List.getD_eq_getElem?_getD, List.getElem?_set_ne h,
    ← List.getD_eq_getElem?_getD]

/-- Attaching a node under parent `a` appends the fresh index to `a`'s
child list. -/
theorem attach_children_self (st : TState) (nd : NodeData) (a : Nat)
    (h : a < arenaSize st) :
    (getNode (attachToTree st nd a).1 a).children
      = (getNode st a).children ++ [arenaSize st] := by
  simp only [attachToTree, getNode, setNode, arenaSize] at *
  rcases hl : (st.getD a default).children.getLast? with _ | l
  · simp only [hl]
    rw [getD_set_self]
    · rw [List.getD_append]
      exact h
    · simp
      omega
  · simp only [hl]
    by_cases hla : l = a
    · subst hla
      rw [getD_set_self]
      · rw [getD_set_self]
        · rw [List.getD_append]
          exact h
        · simp
          omega
      · simp
        omega
    · rw [getD_set_ne _ _ _ _ _ hla]
      rw [getD_set_self]
      · rw [List.getD_append]
        exact h
      · simp
        omega

/-! Theorems about the claims. -/

/-- C1 (counterexample): on `find . -name x -and -not -name y` the
normalization succeeds and the emitted binary-logic-op node (`-and`, arena
index 5) ends normalization with zero children, not with the two operand
children the claim states. -/
theorem C1_counterexample :
    isTreeResult rFindAnd = true
    ∧ (nodeAt rFindAnd 5).kind = "binarylogicop"
    ∧ (nodeAt rFindAnd 5).value = "-and"
    ∧ (nodeAt rFindAnd 5).children.length = 0
    ∧ ¬ (nodeAt rFindAnd 5).children.length = 2 := by
  decide

/-- C1 (amended): the binary-logic-op node is never restructured: it ends
normalization with zero children; the flag attached immediately before the
operator token (`-name x`, index 3) remains its left sibling and the
absorbed negation subtree attached immediately after (`-not` over
`-name y`, index 6) remains its right sibling, in left-to-right order under
the common head-command parent. -/
theorem C1_amended_binary_op_stays_childless :
    (nodeAt rFindAnd 5).kind = "binarylogicop"
    ∧ (nodeAt rFindAnd 5).children = []
    ∧ (nodeAt rFindAnd 5).lsb = some 3
    ∧ (nodeAt rFindAnd 5).rsb = some 6
    ∧ (nodeAt rFindAnd 3).kind = "flag"
    ∧ (nodeAt rFindAnd 3).value = "-name"
    ∧ (nodeAt rFindAnd 3).children = [4]
    ∧ (nodeAt rFindAnd 4).value = "x"
    ∧ (nodeAt rFindAnd 6).kind = "unarylogicop"
    ∧ (nodeAt rFindAnd 6).value = "-not"
    ∧ (nodeAt rFindAnd 6).children = [7]
    ∧ (nodeAt rFindAnd 7).kind = "flag"
    ∧ (nodeAt rFindAnd 7).value = "-name"
    ∧ (nodeAt rFindAnd 1).children = [2, 3, 5, 6] := by
  decide

/-- C2 (counterexample): the input `-name x` (a command starting with an
option, so the attach point is still the root when the flag arrives) drives
`find_attach_point` into its `sys.exit()` branch: the entry point terminates
the process instead of returning a tree or no-result. -/
theorem C2_counterexample :
    normalize_ast parseDashName 50 "-name x" false = .processExit
    ∧ EntryResult.processExit ≠ EntryResult.noResult := by
  decide

/-- C2 (amended): the entry-point boundary catches exactly `ValueError`: no
normalization outcome ever surfaces a `ValueError` to the caller (it is
always converted to no-result), while `sys.exit` branches terminate the
process and the remaining exception classes propagate. -/
theorem C2_amended_valueerror_always_contained :
    ∀ (fuel : Nat) (b : Bool) (t : RawAst) (m : String),
      normalize_tree fuel b t ≠ .uncaught (.valueError m) := by
  intro fuel b t m
  unfold normalize_tree
  rcases run b fuel (.one t (some 0) "") [rootData] with e | p
  · cases e <;> simp [entryOf]
  · rcases p with ⟨st, sc⟩
    simp [entryOf]

/-- C3 (counterexample): a pipeline raw node with an even number of parts
(`ls |`) makes the entry point terminate the process through `sys.exit`; it
does not yield no-result. -/
theorem C3_counterexample :
    normalize_ast parseEvenPipe 50 "ls |" false = .processExit
    ∧ EntryResult.processExit ≠ EntryResult.noResult := by
  decide

/-- C3 (amended): a pipeline raw node with an even part count is a fatal
malformed-pipeline error that exits the process (for every attach point,
state and digit switch), instead of returning no-result; with an odd part
count (`find . | grep foo`) the pipeline node's children are the normalized
command stages in order and no pipe-operator part is materialized as a
node. -/
theorem C3_amended_even_pipeline_exits
    (b : Bool) (fuel : Nat) (w t : String) (pos : Nat × Nat)
    (parts cmdl : List RawAst) (p : Nat) (st : TState)
    (heven : parts.length % 2 = 0) :
    run b (fuel + 1) (.one (.mk "pipeline" w pos true parts cmdl) (some p) t) st
      = .error .sysExit
    ∧ (nodeAt rOddPipe 1).kind = "pipeline"
    ∧ (nodeAt rOddPipe 1).children = [2, 4]
    ∧ (nodeAt rOddPipe 2).kind = "headcommand"
    ∧ (nodeAt rOddPipe 2).value = "find"
    ∧ (nodeAt rOddPipe 4).kind = "headcommand"
    ∧ (nodeAt rOddPipe 4).value = "grep"
    ∧ ((resultNodes rOddPipe).all (fun n => n.kind != "pipe")) = true := by
  refine ⟨?_, by decide, by decide, by decide, by decide, by decide, by decide, by decide⟩
  simp [run, attachM, heven]

/-- C3 (witness): the even-part branch applied to the concrete two-part
pipeline raw node. -/
theorem C3_amended_even_pipeline_exits_witness :
    ([lsCmd, pipeTok].length % 2 = 0)
    ∧ run false 5 (.one (.mk "pipeline" "" (0, 1) true [lsCmd, pipeTok] []) (some 0) "")
        [rootData] = .error .sysExit :=
  ⟨by decide,
   (C3_amended_even_pipeline_exits false 4 "" "" (0, 1) [lsCmd, pipeTok] [] 0 [rootData]
      (by decide)).1⟩

/-- C4 (code bug): the absorption pass works as claimed for a single unary
operator (`-not` in `find . -name x -and -not -name y` absorbs the next flag
as its sole child and clears its sibling links), but on
`find . -not -not -name x` the first `-not` absorbs the second one and
clears its right-sibling pointer, so the second `-not`, which did have a
right sibling at the end of the scan, fails `assert(rsb != None)` and the
`AssertionError` escapes the entry point. -/
theorem C4_unary_absorption_and_assert_failure :
    (nodeAt rFindAnd 6).kind = "unarylogicop"
    ∧ (nodeAt rFindAnd 6).children = [7]
    ∧ (nodeAt rFindAnd 6).rsb = none
    ∧ (nodeAt rFindAnd 7).parent = some 6
    ∧ (nodeAt rFindAnd 7).lsb = none
    ∧ (nodeAt rFindAnd 7).rsb = none
    ∧ normalize_ast parseNotNot 50 "find . -not -not -name x" false
        = .uncaught .assertionError := by
  decide

/-- C5 (counterexample): on `echo $(ls)$(pwd)` the returned tree contains a
command-substitution node with declared arity 1 whose children count is 2:
the children count exceeds the declared fixed arity. -/
theorem C5_counterexample :
    isTreeResult rEchoSub = true
    ∧ (nodeAt rEchoSub 2).kind = "commandsubstitution"
    ∧ (nodeAt rEchoSub 2).numChild = 1
    ∧ (nodeAt rEchoSub 2).children.length = 2
    ∧ (nodeAt rEchoSub 2).numChild < ((nodeAt rEchoSub 2).children.length : Int) := by
  decide

/-- C5 (amended): the declared `num_child` arity is an unenforced
annotation: a command-substitution node (arity 1) ends with two children
when a word holds two substitutions, and flag nodes are built as
`ArgumentNode`s with declared arity 0 yet carry their value argument as a
child. -/
theorem C5_amended_arity_not_enforced :
    ((nodeAt rEchoSub 2).numChild = 1
      ∧ (nodeAt rEchoSub 2).children = [3, 4]
      ∧ (nodeAt rEchoSub 3).kind = "headcommand"
      ∧ (nodeAt rEchoSub 4).kind = "headcommand")
    ∧ ((nodeAt rFindAnd 3).kind = "flag"
      ∧ (nodeAt rFindAnd 3).numChild = 0
      ∧ (nodeAt rFindAnd 3).children.length = 1) := by
  decide

/-- Decidable equality of normalizer outcomes, used to evaluate concrete
runs inside closed statements. -/
instance {e a : Type _} [DecidableEq e] [DecidableEq a] :
    DecidableEq (Except e a) := fun x y =>
  match x, y with
  | .error u, .error v =>
    if h : u = v then .isTrue (congrArg _ h)
    else .isFalse (fun hh => h (Except.error.inj hh))
  | .ok u, .ok v =>
    if h : u = v then .isTrue (congrArg _ h)
    else .isFalse (fun hh => h (Except.ok.inj hh))
  | .error _, .ok _ => .isFalse (fun hh => Except.noConfusion hh)
  | .ok _, .error _ => .isFalse (fun hh => Except.noConfusion hh)

/-- A small arena holding the root and one head-command node, used as the
concrete scan context of witnesses. -/
def headScanState : TState :=
  [rootData, ⟨some 0, none, none, "headcommand", "find", [], 0⟩]

/-- Scan state whose cursor sits at the head-command node of
`headScanState`. -/
def headScan : Scan := ⟨some 1, false, false, [], []⟩

/-- Normalization result of `cp file1 file2` with digit canonicalization. -/
def rCpOn : EntryResult := normalize_ast parseCp 50 "cp file1 file2" true

/-- Normalization result of `cp file1 file2` without digit
canonicalization. -/
def rCpOff : EntryResult := normalize_ast parseCp 50 "cp file1 file2" false

/-- C7: inside one command scan with the cursor at a head command, the
literal `--` emits no node and only sets the end-of-options flag; with the
flag set, an option-shaped word that is not an operator or head command is
attached as a generic argument at the unchanged cursor; with the flag clear,
the same word becomes a flag node and the cursor advances to it (the fresh
arena index). -/
theorem C7_end_of_options
    (b : Bool) (fuel : Nat) (st : TState) (scan : Scan) (w : String) (p q a : Nat)
    (heoc : scan.eoc = false)
    (hap : scan.ap = some a)
    (ha : a < arenaSize st)
    (hk : (getNode st a).kind = "headcommand")
    (hopt : is_option w = true)
    (hdash : w ≠ "--") (hsemi : w ≠ ";")
    (hun : w ∉ unary_logic_operators)
    (hbin : w ∉ binary_logic_operators)
    (hhead : w ∉ head_commands) :
    run b (fuel + 1 + 1) (.cmdseq [mkWord "--" 0 2] scan) st
      = .ok (st, { scan with eoo := true })
    ∧ run b (fuel + 1 + 1) (.cmdseq [mkWord w p q] { scan with eoo := true }) st
        = .ok ((attachToTree st (mkArgumentNode "argument" (normalize_word b w)) a).1,
               { scan with eoo := true })
    ∧ run b (fuel + 1 + 1) (.cmdseq [mkWord w p q] { scan with eoo := false }) st
        = .ok ((attachToTree st (mkArgumentNode "flag" (normalize_word b w)) a).1,
               { scan with eoo := false, ap := some (arenaSize st) }) := by
  refine ⟨?_, ?_, ?_⟩
  · simp [run, mkWord, RawAst.kind, RawAst.word, heoc]
  · simp [run, mkWord, RawAst.kind, RawAst.word, RawAst.pos, heoc, hap, hdash, hsemi,
      hun, hbin, hhead, hopt, attachResult, attachM]
  · simp [run, mkWord, RawAst.kind, RawAst.word, RawAst.pos, heoc, hap, hdash, hsemi,
      hun, hbin, hhead, hopt, attachResult, attachM, findAttachPoint, hk,
      attach_children_self st (mkArgumentNode "flag" (normalize_word b w)) a ha]

/-- C7 (witness): the post-`--` behaviour at the concrete head-command
arena, for the option-shaped word `-size`. -/
theorem C7_end_of_options_witness :
    headScan.eoc = false ∧ headScan.ap = some 1 ∧ 1 < arenaSize headScanState
    ∧ (getNode headScanState 1).kind = "headcommand"
    ∧ is_option "-size" = true
    ∧ run false 5 (.cmdseq [mkWord "-size" 0 5] { headScan with eoo := true }) headScanState
        = .ok ((attachToTree headScanState
                  (mkArgumentNode "argument" (normalize_word false "-size")) 1).1,
               { headScan with eoo := true }) :=
  ⟨by decide, by decide, by decide, by decide, by decide,
   (C7_end_of_options false 3 headScanState headScan "-size" 0 5 1 (by decide) (by decide)
      (by decide) (by decide) (by decide) (by decide) (by decide) (by decide) (by decide)
      (by decide)).2.1⟩

/-- C8: an option word is never canonicalized for either switch value; with
the switch off every word is preserved; on `cp file1 file2` both filename
argument leaves carry the placeholder with the switch on and the original
numerals with it off. -/
theorem C8_digit_canonicalization (w : String) (b : Bool)
    (hopt : is_option w = true) :
    normalize_word b w = w
    ∧ (∀ v : String, normalize_word false v = v)
    ∧ (nodeAt rCpOn 2).kind = "argument"
    ∧ (nodeAt rCpOn 2).value = "file_NUM"
    ∧ (nodeAt rCpOn 3).value = "file_NUM"
    ∧ (nodeAt rCpOff 2).value = "file1"
    ∧ (nodeAt rCpOff 3).value = "file2" := by
  refine ⟨?_, ?_, by decide, by decide, by decide, by decide, by decide⟩
  · simp [normalize_word, hopt]
  · intro v
    simp [normalize_word]

/-- C8 (witness): the option token `-size` stays unchanged with the switch
on. -/
theorem C8_digit_canonicalization_witness :
    is_option "-size1" = true ∧ normalize_word true "-size1" = "-size1" :=
  ⟨by decide, (C8_digit_canonicalization "-size1" true (by decide)).1⟩

/-- C9: the preprocessor returns any command not beginning with `tar`
textually unchanged; on `tar xvf archive.tar` it inserts the missing dash
before the bare option cluster, and the entry point therefore normalizes the
bare and the explicitly dashed spelling identically under every parser
oracle, fuel and digit switch. -/
theorem C9_tar_preprocessing (cmd : String) (h : startsWithTar cmd = false) :
    special_command_normalization cmd = cmd
    ∧ special_command_normalization "tar xvf archive.tar" = "tar -xvf archive.tar"
    ∧ ∀ (parse : String → Option (List RawAst)) (fuel : Nat) (b : Bool),
        normalize_ast parse fuel "tar xvf archive.tar" b
          = normalize_ast parse fuel "tar -xvf archive.tar" b := by
  refine ⟨?_, by decide, ?_⟩
  · simp [special_command_normalization, h]
  · intro parse fuel b
    have h1 : preprocessed "tar xvf archive.tar" = "tar -xvf archive.tar" := by decide
    have h2 : preprocessed "tar -xvf archive.tar" = "tar -xvf archive.tar" := by decide
    simp only [normalize_ast, h1, h2]

/-- C9 (witness): a command not beginning with `tar` is unchanged. -/
theorem C9_tar_preprocessing_witness :
    startsWithTar "ls -la" = false
    ∧ special_command_normalization "ls -la" = "ls -la" :=
  ⟨by decide, (C9_tar_preprocessing "ls -la" (by decide)).1⟩

/-- C10: a word that is a whitelisted head-command name but whose source
span width differs from its bare length (a quoted occurrence) is silently
dropped by the command scan: the arena and the whole scan state, cursor
included, are returned unchanged, and no argument node is emitted. -/
theorem C10_quoted_headcommand_dropped
    (b : Bool) (fuel : Nat) (st : TState) (scan : Scan) (w : String) (p q : Nat)
    (heoc : scan.eoc = false)
    (hdash : w ≠ "--") (hsemi : w ≠ ";")
    (hun : w ∉ unary_logic_operators)
    (hbin : w ∉ binary_logic_operators)
    (hhead : w ∈ head_commands)
    (hq : ¬ (w.length = q - p)) :
    run b (fuel + 1 + 1) (.cmdseq [mkWord w p q] scan) st = .ok (st, scan) := by
  simp [run, mkWord, RawAst.kind, RawAst.word, RawAst.pos, heoc, hdash, hsemi,
    hun, hbin, hhead, hq]

/-- C10 (witness): a quoted `"find"` (span 6, bare length 4) leaves the
arena and scan untouched. -/
theorem C10_quoted_headcommand_dropped_witness :
    "find" ∈ head_commands ∧ ¬ ((String.length "find") = 6 - 0)
    ∧ run false 5 (.cmdseq [mkWord "find" 0 6] emptyScan) [rootData]
        = .ok ([rootData], emptyScan) :=
  ⟨by decide, by decide,
   C10_quoted_headcommand_dropped false 3 [rootData] emptyScan "find" 0 6 (by decide)
     (by decide) (by decide) (by decide) (by decide) (by decide) (by decide)⟩

/-- C6 (code bug): a raw list node with five parts (`ls ; pwd ; echo hi`)
runs the bare-string raise, which Python 2 turns into a `TypeError`; the
entry point catches only `ValueError`, so the exception propagates to the
caller instead of producing no-result. -/
theorem C6_list_overflow_raises_typeerror :
    normalize_ast parseList3 50 "ls ; pwd ; echo hi" false
      = .uncaught (.typeError "Unsupported: list of length >= 2")
    ∧ EntryResult.uncaught (.typeError "Unsupported: list of length >= 2")
        ≠ EntryResult.noResult := by
  decide

end Normalizer
